import Mathlib

/-!
Verification of the silos structural-mutation engine and retrieval state.

The Rust source is shallowly embedded: byte buffers are `List Nat`,
Rust `String` values are their UTF-8 byte lists, `HashMap` values are
association lists with replace-on-insert, and every fallible Rust
computation is an `Outcome`: a normal return, a recoverable
`Result::Err`, or a process-aborting panic (`unwrap` on `None`/`Err`,
`unreachable!`, out-of-bounds indexing).  External collaborators
(tree-sitter query evaluation, the parser, the ANN index, the embedder)
are parameters recording their behaviour for the one request being
modelled.
-/

namespace Silos

/-- Outcome of running a piece of Rust code: normal return `ok`,
recoverable `Result::Err`, or a panic. -/
inductive Outcome (ε α : Type) where
  | ok (a : α)
  | error (e : ε)
  | panic
  deriving Repr, DecidableEq

def Outcome.map {ε α β : Type} (f : α → β) : Outcome ε α → Outcome ε β
  | .ok a => .ok (f a)
  | .error e => .error e
  | .panic => .panic

def Outcome.bind {ε α β : Type} : Outcome ε α → (α → Outcome ε β) → Outcome ε β
  | .ok a, f => f a
  | .error e, _ => .error e
  | .panic, _ => .panic

def Outcome.toOption {ε α : Type} : Outcome ε α → Option α
  | .ok a => some a
  | _ => none

/-- Is `b` a UTF-8 continuation byte (`0x80..=0xBF`)? -/
def isCont (b : Nat) : Bool := decide (0x80 ≤ b ∧ b ≤ 0xBF)

/-- UTF-8 validity of a byte sequence, following the byte-range table of
RFC 3629; this is the check behind Rust's `std::str::from_utf8`. -/
def isValidUtf8 : List Nat → Bool
  | [] => true
  | b :: rest =>
    if b ≤ 0x7F then isValidUtf8 rest
    else if 0xC2 ≤ b ∧ b ≤ 0xDF then
      match rest with
      | c1 :: rest2 => isCont c1 && isValidUtf8 rest2
      | [] => false
    else if b = 0xE0 then
      match rest with
      | c1 :: c2 :: rest2 =>
          decide (0xA0 ≤ c1 ∧ c1 ≤ 0xBF) && isCont c2 && isValidUtf8 rest2
      | _ => false
    else if (0xE1 ≤ b ∧ b ≤ 0xEC) ∨ b = 0xEE ∨ b = 0xEF then
      match rest with
      | c1 :: c2 :: rest2 => isCont c1 && isCont c2 && isValidUtf8 rest2
      | _ => false
    else if b = 0xED then
      match rest with
      | c1 :: c2 :: rest2 =>
          decide (0x80 ≤ c1 ∧ c1 ≤ 0x9F) && isCont c2 && isValidUtf8 rest2
      | _ => false
    else if b = 0xF0 then
      match rest with
      | c1 :: c2 :: c3 :: rest2 =>
          decide (0x90 ≤ c1 ∧ c1 ≤ 0xBF) && isCont c2 && isCont c3 &&
            isValidUtf8 rest2
      | _ => false
    else if 0xF1 ≤ b ∧ b ≤ 0xF3 then
      match rest with
      | c1 :: c2 :: c3 :: rest2 =>
          isCont c1 && isCont c2 && isCont c3 && isValidUtf8 rest2
      | _ => false
    else if b = 0xF4 then
      match rest with
      | c1 :: c2 :: c3 :: rest2 =>
          decide (0x80 ≤ c1 ∧ c1 ≤ 0x8F) && isCont c2 && isCont c3 &&
            isValidUtf8 rest2
      | _ => false
    else false

/-- `Substitute` from `src/v2/mutation.rs`: either a literal string
(as UTF-8 bytes) or the name of a query capture. -/
inductive Substitute where
  | literal (s : List Nat)
  | capture (s : String)
  deriving Repr, DecidableEq

/-- `Mutation` from `src/v2/mutation.rs`. -/
structure Mutation where
  expression : String
  substitute : List Substitute
  deriving Repr, DecidableEq

/-- `MutationCollection` from `src/v2/mutation.rs`. -/
structure MutationCollection where
  description : String
  mutations : List Mutation
  deriving Repr, DecidableEq

/-- One capture of a tree-sitter query match: the capture index into the
query's capture-name table and the captured node's byte span. -/
structure CaptureRec where
  idx : Nat
  nstart : Nat
  nend : Nat
  deriving Repr, DecidableEq

/-- The behaviour of one compiled tree-sitter query against the fixed
parsed tree of the request: the query's capture names and the captures
of the first match returned by the cursor (`None` when there is no
match). -/
structure QuerySpec where
  captureNames : List String
  firstMatch : Option (List CaptureRec)
  deriving Repr, DecidableEq

/-- `QueryCooked` from `src/v2/mutation.rs`. -/
structure QueryCooked where
  captures : List (String × List Nat)
  qend : Nat
  qstart : Nat
  deriving Repr, DecidableEq

/-- `HashMap<String, String>` insert: replace the value when the key is
present, append otherwise. -/
def insertS (k : String) (v : List Nat) : List (String × List Nat) →
    List (String × List Nat)
  | [] => [(k, v)]
  | (k', v') :: rest =>
      if k = k' then (k, v) :: rest else (k', v') :: insertS k v rest

/-- `HashMap<String, String>` lookup. -/
def lookupS (k : String) : List (String × List Nat) → Option (List Nat)
  | [] => none
  | (k', v') :: rest => if k = k' then some v' else lookupS k rest

/-- `HashMap<usize, String>` insert with replacement. -/
def insertN (k : Nat) (v : List Nat) : List (Nat × List Nat) →
    List (Nat × List Nat)
  | [] => [(k, v)]
  | (k', v') :: rest =>
      if k = k' then (k, v) :: rest else (k', v') :: insertN k v rest

/-- `HashMap<usize, String>` lookup. -/
def lookupN (k : Nat) : List (Nat × List Nat) → Option (List Nat)
  | [] => none
  | (k', v') :: rest => if k = k' then some v' else lookupN k rest

/-- `Node::utf8_text(source)` followed by `.unwrap()`: slice
`source[s..e]` (panic when out of bounds) and require valid UTF-8
(panic on `Utf8Error`, matching the `unwrap` at mutation.rs:178). -/
def utf8Text {ε : Type} (src : List Nat) (s e : Nat) : Outcome ε (List Nat) :=
  if s ≤ e ∧ e ≤ src.length then
    let seg := (src.drop s).take (e - s)
    if isValidUtf8 seg then .ok seg else .panic
  else .panic

/-- The capture loop of `query` (mutation.rs:167-181): for each capture
of the first match, skip it when its index has no name, let a capture
named `root` set the span, and store any other capture's source text. -/
def queryLoop {ε : Type} (names : List String) (src : List Nat)
    (st : Nat × Nat × List (String × List Nat)) :
    List CaptureRec → Outcome ε (Nat × Nat × List (String × List Nat))
  | [] => .ok st
  | cap :: rest =>
    match names[cap.idx]? with
    | none => queryLoop names src st rest
    | some name =>
      if name = "root" then
        queryLoop names src (cap.nstart, cap.nend, st.2.2) rest
      else
        (utf8Text src cap.nstart cap.nend).bind fun text =>
          queryLoop names src (st.1, st.2.1, insertS name text st.2.2) rest

/-- `query` from `src/v2/mutation.rs` (lines 154-188).  `env` records, for
each expression, whether `Query::new` succeeds and what the first match
is; `Query::new(lang, expr).unwrap()` panics on a malformed expression
(mutation.rs:155).  With no match, `start`/`end` stay `0`. -/
def query {ε : Type} (env : String → Option QuerySpec) (expr : String)
    (src : List Nat) : Outcome ε QueryCooked :=
  match env expr with
  | none => .panic
  | some spec =>
    match spec.firstMatch with
    | none => .ok ⟨[], 0, 0⟩
    | some caps =>
      (queryLoop spec.captureNames src (0, 0, []) caps).map
        fun r => ⟨r.2.2, r.2.1, r.1⟩

/-- The rewrite-building loop of `apply` (mutation.rs:107-113):
concatenate, for each `Substitute`, the literal bytes or the captures
entry; `query_result.captures[attrib]` is `HashMap` indexing, which
panics when the key is absent. -/
def buildRewrite {ε : Type} (captures : List (String × List Nat)) :
    List Substitute → Outcome ε (List Nat)
  | [] => .ok []
  | .literal s :: rest => (buildRewrite captures rest).map (s ++ ·)
  | .capture name :: rest =>
    match lookupS name captures with
    | none => .panic
    | some v => (buildRewrite captures rest).map (v ++ ·)

/-- The per-mutation loop of `apply` (mutation.rs:101-117), folding left
in document order: run `query`, record the `start`/`end` boundaries, and
insert the rewrite into the map keyed by `start` (later mutations
overwrite earlier ones at the same key). -/
def mutationPass {ε : Type} (env : String → Option QuerySpec)
    (src : List Nat) (sa : List Nat) (m : List (Nat × List Nat)) :
    List Mutation → Outcome ε (List Nat × List (Nat × List Nat))
  | [] => .ok (sa, m)
  | mi :: rest =>
    (query env mi.expression src).bind fun qr =>
      (buildRewrite qr.captures mi.substitute).bind fun rw =>
        mutationPass env src (sa ++ [qr.qstart, qr.qend])
          (insertN qr.qstart rw m) rest

/-- Rust slice `&c[a..b]`: panics unless `a ≤ b ≤ c.len()`. -/
def slice {ε : Type} (c : List Nat) (a b : Nat) : Outcome ε (List Nat) :=
  if a ≤ b ∧ b ≤ c.length then .ok ((c.drop a).take (b - a)) else .panic

/-- `Vec::sort` on the boundary offsets (mutation.rs:118): the sorted
permutation (duplicates kept — the code does not deduplicate). -/
def sortNat (l : List Nat) : List Nat := List.insertionSort (· ≤ ·) l

/-- `SplitMap` from `src/v2/mutation.rs`. -/
structure SplitMap where
  values : List (List Nat)
  indices : List Nat
  deriving Repr, DecidableEq

/-- The loop of `split_at_indices` (mutation.rs:144-149) with running
start `a`: push `c[a..b]` and `b` for each boundary, then `c[a..]`. -/
def splitAtIndicesGo {ε : Type} (c : List Nat) (a : Nat) :
    List Nat → Outcome ε (List (List Nat) × List Nat)
  | [] => (slice c a c.length).map fun last => ([last], [])
  | b :: rest =>
    (slice c a b).bind fun v =>
      (splitAtIndicesGo c b rest).map fun p => (v :: p.1, b :: p.2)

/-- `split_at_indices` from `src/v2/mutation.rs` (lines 140-152);
`indices` always starts with `0`.  The `assert_eq` on the two lengths
holds by construction. -/
def split_at_indices {ε : Type} (c : List Nat) (idx : List Nat) :
    Outcome ε SplitMap :=
  (splitAtIndicesGo c 0 idx).map fun p => ⟨p.1, 0 :: p.2⟩

/-- The output loop of `apply` (mutation.rs:121-124): for each
`(index, segment)` pair, decode the original segment
(`std::str::from_utf8(split)?` — a recoverable error on invalid UTF-8),
then emit the rewrite stored for that index, or the segment itself. -/
def emitOutput (m : List (Nat × List Nat)) :
    List (Nat × List Nat) → Outcome Unit (List Nat)
  | [] => .ok []
  | (i, seg) :: rest =>
    if isValidUtf8 seg then
      (emitOutput m rest).map fun out => ((lookupN i m).getD seg) ++ out
    else .error ()

/-- The tail of `apply` after the mutation loop (mutation.rs:118-125):
sort the boundaries, split the source, emit each piece. -/
def applyFinish (src : List Nat) (sa : List Nat)
    (m : List (Nat × List Nat)) : Outcome Unit (List Nat) :=
  (split_at_indices src (sortNat sa)).bind fun sm =>
    emitOutput m (sm.indices.zip sm.values)

/-- `apply` from `src/v2/mutation.rs` (lines 93-126). -/
def apply (env : String → Option QuerySpec) (src : List Nat)
    (mc : MutationCollection) : Outcome Unit (List Nat) :=
  (mutationPass env src [] [] mc.mutations).bind fun p =>
    applyFinish src p.1 p.2

/-- Concatenation of all the segments of a split. -/
def concatAll (l : List (List Nat)) : List Nat := l.foldr (· ++ ·) []

/-- A KDL value as seen through `kdl::KdlValue::as_string`: either a
string or some non-string value. -/
inductive KdlValue where
  | str (s : String)
  | nonstr
  deriving Repr, DecidableEq

/-- A parsed KDL node: name, positional arguments, and optional child
document (`node.children()`). -/
inductive KdlNode where
  | mk (name : String) (args : List KdlValue) (children : Option (List KdlNode))

def KdlNode.name : KdlNode → String
  | .mk n _ _ => n

def KdlNode.args : KdlNode → List KdlValue
  | .mk _ a _ => a

def KdlNode.children : KdlNode → Option (List KdlNode)
  | .mk _ _ c => c

def KdlValue.asString : KdlValue → Option String
  | .str s => some s
  | .nonstr => none

/-- `KdlDocument::get`: first node with the given name. -/
def getNode (doc : List KdlNode) (name : String) : Option KdlNode :=
  doc.find? fun n => n.name == name

/-- `KdlDocument::get_arg`: first argument of the first node with the
given name. -/
def getArg (doc : List KdlNode) (name : String) : Option KdlValue :=
  (getNode doc name).bind fun n => n.args[0]?

/-- UTF-8 bytes of a Lean string, for literal substitute text. -/
def strBytes (s : String) : List Nat := s.toUTF8.toList.map (·.toNat)

/-- The `substitute` child loop of `from_path` (mutation.rs:64-73): for
each child, `child.entry(0).unwrap().value().as_string().unwrap()` (a
panic when the entry is missing or not a string), then match the tag:
`literal`, `capture`, or `unreachable!()` — a panic, not an error. -/
def parseSubs : List KdlNode → Outcome Unit (List Substitute)
  | [] => .ok []
  | child :: rest =>
    match child.args[0]? with
    | none => .panic
    | some v =>
      match v.asString with
      | none => .panic
      | some attrib =>
        if child.name = "literal" then
          (parseSubs rest).map (Substitute.literal (strBytes attrib) :: ·)
        else if child.name = "capture" then
          (parseSubs rest).map (Substitute.capture attrib :: ·)
        else .panic

/-- The document loop of `from_path` (mutation.rs:33-81), carrying the
`description` option and the accumulated mutations.  A node that is
neither `mutation` nor `description` is a `bail!` (recoverable error);
the unwraps on `entry(0)`, `as_string` and `children()` are panics. -/
def compileLoop (desc : Option String) (acc : List Mutation) :
    List KdlNode → Outcome Unit (Option String × List Mutation)
  | [] => .ok (desc, acc)
  | node :: rest =>
    if node.name ≠ "mutation" ∧ node.name ≠ "description" then .error ()
    else if node.name = "description" then
      match node.args[0]? with
      | none => .panic
      | some v =>
        match v.asString with
        | none => .panic
        | some s => compileLoop (some s) acc rest
    else
      match node.children with
      | none => .panic
      | some childDoc =>
        match (getArg childDoc "expression").bind KdlValue.asString with
        | none => .error ()
        | some expr =>
          match getNode childDoc "substitute" with
          | none => .error ()
          | some subNode =>
            match subNode.children with
            | none => .panic
            | some subChildren =>
              (parseSubs subChildren).bind fun subs =>
                compileLoop desc (acc ++ [⟨expr, subs⟩]) rest

/-- `from_path` from `src/v2/mutation.rs` (lines 26-91) after the
file-system read and KDL parse (external collaborators): compile a
parsed rule document into a `MutationCollection`; a missing
`description` is a `bail!` (recoverable error). -/
def compileDoc (nodes : List KdlNode) : Outcome Unit MutationCollection :=
  (compileLoop none [] nodes).bind fun p =>
    match p.1 with
    | none => .error ()
    | some d => .ok ⟨d, p.2⟩

/-- `state::Error` from `src/state.rs`. -/
inductive Error where
  | EmbedFailed
  | UnknownLang
  | SnippetParsing
  deriving Repr, DecidableEq

/-- The grammars handed out by `Refactor::get_lang`. -/
inductive Lang where
  | go
  | c
  | cpp
  | js
  | rust
  deriving Repr, DecidableEq

/-- `Refactor::get_lang` from `src/state.rs` (lines 26-36): the static
language table; an unknown tag is `Err(Error::UnknownLang)`. -/
def Refactor.get_lang (s : String) : Except Error Lang :=
  if s = "go" then .ok .go
  else if s = "c" ∨ s = "h" then .ok .c
  else if s = "cpp" ∨ s = "hpp" then .ok .cpp
  else if s = "js" ∨ s = "ts" then .ok .js
  else if s = "rs" then .ok .rust
  else .error .UnknownLang

/-- Behaviour of the parser collaborators for the one request being
modelled: whether `Parser::set_language` succeeds for the resolved
grammar, whether `parser.parse(body, None)` returns a tree, and the
tree-sitter query behaviour over that tree. -/
structure ParserEnv where
  setLangOk : Lang → Bool
  parseOk : Bool
  queryEnv : String → Option QuerySpec

/-- `Refactor` from `src/state.rs`: the per-language ANN indexes
(`dict lang = some ids` records that the built index for `lang` exists
and its `search(target, top_k)` returns `ids` for this request's vector)
and the flat collection the ids point into. -/
structure Refactor where
  dict : String → Option (List Nat)
  mutations_collection : List MutationCollection

/-- Observable steps of a refactor request, in order of occurrence. -/
inductive Event where
  | embed
  | resolveGrammar
  | parseBody
  | searchIndex
  | applyCandidate (i : Nat)
  deriving Repr, DecidableEq

/-- The `filter_map` over search hits (state.rs:59-81):
`&self.mutations_collection[index]` is `Vec` indexing (a panic when out
of bounds); an `Err` from `apply` drops the candidate and the loop
continues; an `Ok` keeps it. -/
def candLoop (qenv : String → Option QuerySpec) (src : List Nat)
    (colls : List MutationCollection) :
    List Nat → List Event × Outcome Error (List (List Nat))
  | [] => ([], .ok [])
  | i :: rest =>
    match colls[i]? with
    | none => ([.applyCandidate i], .panic)
    | some coll =>
      match apply qenv src coll with
      | .panic => ([.applyCandidate i], .panic)
      | .error _ =>
        (.applyCandidate i :: (candLoop qenv src colls rest).1,
          (candLoop qenv src colls rest).2)
      | .ok v =>
        (.applyCandidate i :: (candLoop qenv src colls rest).1,
          (candLoop qenv src colls rest).2.map (v :: ·))

/-- `Refactor::search` from `src/state.rs` (lines 38-83), with its event
trace: resolve the grammar (`get_lang` + `set_language`), parse the body
once, then `self.dict[lang]` — `HashMap` indexing, a panic when the key
is absent — search the index, and apply each candidate against the
single shared tree. -/
def Refactor.search (self : Refactor) (penv : ParserEnv) (lang : String)
    (body : List Nat) : List Event × Outcome Error (List (List Nat)) :=
  match Refactor.get_lang lang with
  | .error e => ([.resolveGrammar], .error e)
  | .ok L =>
    if penv.setLangOk L then
      if penv.parseOk then
        match self.dict lang with
        | none => ([.resolveGrammar, .parseBody], .panic)
        | some ids =>
          ([.resolveGrammar, .parseBody, .searchIndex] ++
              (candLoop penv.queryEnv body self.mutations_collection ids).1,
            (candLoop penv.queryEnv body self.mutations_collection ids).2)
      else ([.resolveGrammar, .parseBody], .error .SnippetParsing)
    else ([.resolveGrammar], .error .UnknownLang)

/-- `Generate` from `src/state.rs`: per-language snippet indexes;
`dict lang = some snippets` records that the index exists and its
search returns `snippets` for this request. -/
structure Generate where
  dict : String → Option (List (List Nat))

/-- `Generate::search` from `src/state.rs` (lines 111-116): a checked
`HashMap::get`, `Err(Error::UnknownLang)` when the language has no
index. -/
def Generate.search (self : Generate) (lang : String) :
    Outcome Error (List (List Nat)) :=
  match self.dict lang with
  | none => .error .UnknownLang
  | some snippets => .ok snippets

/-- `State` from `src/state.rs`: the embedder (recorded as whether the
embedding of this request's prompt succeeds) and the two corpora. -/
structure State where
  embedOk : Bool
  generateCorpus : Generate
  refactorCorpus : Refactor

/-- `State::refactor` from `src/state.rs` (lines 141-153): embed the
prompt first (`self.embed.embed(prompt)`), fail with `EmbedFailed` when
the embedder errors, and only then call `Refactor::search`. -/
def State.refactor (st : State) (penv : ParserEnv) (lang : String)
    (body : List Nat) : List Event × Outcome Error (List (List Nat)) :=
  if st.embedOk then
    (Event.embed :: (Refactor.search st.refactorCorpus penv lang body).1,
      (Refactor.search st.refactorCorpus penv lang body).2)
  else ([Event.embed], .error .EmbedFailed)

/-- `State::generate` from `src/state.rs` (lines 133-139). -/
def State.generate (st : State) (lang : String) :
    Outcome Error (List (List Nat)) :=
  if st.embedOk then Generate.search st.generateCorpus lang
  else .error .EmbedFailed

/-- The candidate a search hit resolves to, when its application
succeeds: `Vec` lookup followed by the successful result of `apply`. -/
def applyOk (qenv : String → Option QuerySpec) (src : List Nat)
    (colls : List MutationCollection) (i : Nat) : Option (List Nat) :=
  colls[i]?.bind fun c => (apply qenv src c).toOption

theorem get_lang_error (s : String) (e : Error)
    (h : Refactor.get_lang s = .error e) : e = .UnknownLang := by
  unfold Refactor.get_lang at h
  split_ifs at h
  all_goals simp_all

theorem concatAll_length (l : List (List Nat)) :
    (concatAll l).length = (l.map List.length).sum := by
  induction l with
  | nil => simp [concatAll]
  | cons x xs ih => simp [concatAll] at ih ⊢; omega

theorem take_sub_append_drop (c : List Nat) (a b : Nat) (hab : a ≤ b) :
    (c.drop a).take (b - a) ++ c.drop b = c.drop a := by
  have h1 : (c.drop a).drop (b - a) = c.drop b := by
    rw [List.drop_drop]
    congr 1
    omega
  calc (c.drop a).take (b - a) ++ c.drop b
      = (c.drop a).take (b - a) ++ (c.drop a).drop (b - a) := by rw [h1]
    _ = c.drop a := List.take_append_drop _ _

theorem splitAtIndicesGo_spec (c : List Nat) :
    ∀ (idx : List Nat) (a : Nat), a ≤ c.length →
      (∀ b ∈ idx, a ≤ b ∧ b ≤ c.length) →
      List.Pairwise (· ≤ ·) idx →
      ∃ vs, (splitAtIndicesGo c a idx : Outcome Unit _) = .ok (vs, idx) ∧
        concatAll vs = c.drop a := by
  intro idx
  induction idx with
  | nil =>
    intro a ha _ _
    refine ⟨[(c.drop a).take (c.length - a)], ?_, ?_⟩
    · simp [splitAtIndicesGo, slice, ha, Outcome.map]
    · have : (c.drop a).take (c.length - a) = c.drop a := by
        rw [← List.length_drop, List.take_length]
      simp [concatAll, this]
  | cons b rest ih =>
    intro a ha hmem hpw
    obtain ⟨hab, hbl⟩ := hmem b (by simp)
    have hrest : ∀ x ∈ rest, b ≤ x ∧ x ≤ c.length := by
      intro x hx
      exact ⟨(List.pairwise_cons.mp hpw).1 x hx, (hmem x (by simp [hx])).2⟩
    obtain ⟨vs, hgo, hcat⟩ :=
      ih b hbl hrest (List.pairwise_cons.mp hpw).2
    refine ⟨(c.drop a).take (b - a) :: vs, ?_, ?_⟩
    · simp [splitAtIndicesGo, slice, hab, hbl, Outcome.bind, hgo, Outcome.map]
    · simp only [concatAll, List.foldr] at hcat ⊢
      rw [hcat, take_sub_append_drop c a b hab]

/-- C1. The claim says a missing named capture contributes the empty
string and `apply` never fails or panics on that account.  The code
(mutation.rs:111) indexes `query_result.captures[attrib]`, and `HashMap`
indexing panics on an absent key: here a mutation whose query match
binds no captures, substituted through `Capture "x"`, makes `apply`
panic. -/
theorem C1_counterexample :
    apply (fun _ => some ⟨["root"], some [⟨0, 0, 1⟩]⟩) [97]
      ⟨"d", [⟨"e", [.capture "x"]⟩]⟩ = .panic := by rfl

/-- C1 (amended): when a `Substitute::Capture` names a capture absent
from the query match's captures map, `apply` panics (the `HashMap` index
at mutation.rs:111); it does not substitute the empty string. -/
theorem C1_missing_capture_panics (env : String → Option QuerySpec)
    (src : List Nat) (d expr name : String) (rest : List Substitute)
    (q : QueryCooked)
    (hq : (query env expr src : Outcome Unit QueryCooked) = .ok q)
    (hmiss : lookupS name q.captures = none) :
    apply env src ⟨d, [⟨expr, .capture name :: rest⟩]⟩ = .panic := by
  simp [apply, mutationPass, Outcome.bind, hq, buildRewrite, hmiss]

theorem C1_witness :
    apply (fun _ => some ⟨["root"], some [⟨2, 0, 1⟩]⟩) [97]
      ⟨"d", [⟨"e", [.capture "y"]⟩]⟩ = .panic :=
  C1_missing_capture_panics _ _ "d" "e" "y" [] ⟨[], 0, 0⟩ (by rfl) (by rfl)

/-- C3. Identity law: for every grammar/tree behaviour, every valid
UTF-8 source buffer and every description, applying a
`MutationCollection` with zero mutations returns the source unchanged. -/
theorem C3_apply_empty_identity (env : String → Option QuerySpec)
    (src : List Nat) (d : String) (h : isValidUtf8 src = true) :
    apply env src ⟨d, []⟩ = .ok src := by
  simp [apply, mutationPass, Outcome.bind, applyFinish, sortNat,
    List.insertionSort, split_at_indices, splitAtIndicesGo, slice,
    Outcome.map, emitOutput, h, lookupN]

theorem C3_witness :
    apply (fun _ => none) [104, 105] ⟨"d", []⟩ = .ok [104, 105] :=
  C3_apply_empty_identity _ _ "d" (by decide)

/-- C6. The claim says a query expression that fails to compile surfaces
an `InvalidExpression` error and `apply` returns an error rather than
aborting.  The code calls `Query::new(lang, expr).unwrap()`
(mutation.rs:155): on a malformed expression the process panics. -/
theorem C6_counterexample :
    apply (fun _ => none) [97] ⟨"d", [⟨"(bad", [.literal [65]]⟩]⟩ =
      .panic := by rfl

/-- C6 (amended): when the query expression of a mutation fails to
compile (the environment records no compiled query for it), `apply`
panics via the `unwrap` at mutation.rs:155 instead of returning an
error. -/
theorem C6_invalid_expression_panics (env : String → Option QuerySpec)
    (src : List Nat) (d expr : String) (subs : List Substitute)
    (rest : List Mutation) (henv : env expr = none) :
    apply env src ⟨d, ⟨expr, subs⟩ :: rest⟩ = .panic := by
  simp [apply, mutationPass, query, henv, Outcome.bind]

theorem C6_witness :
    apply (fun _ => none) [104] ⟨"d", [⟨"(q)", []⟩, ⟨"(r)", []⟩]⟩ =
      .panic :=
  C6_invalid_expression_panics _ _ "d" "(q)" [] [⟨"(r)", []⟩] rfl

/-- C7. The claim says a non-root capture whose byte span is not valid
UTF-8 makes the Query Executor propagate a `Utf8Error` to its caller.
The code calls `cap.node.utf8_text(source_bytes).unwrap()`
(mutation.rs:178): on invalid UTF-8 the process panics — here a capture
spanning the lone byte `0xFF`. -/
theorem C7_counterexample :
    (query (fun _ => some ⟨["name"], some [⟨0, 0, 1⟩]⟩) "e" [255] :
      Outcome Unit QueryCooked) = .panic := by rfl

/-- C7 (amended): a non-root capture whose span is not valid UTF-8 in
the source makes `query` panic (the `unwrap` at mutation.rs:178) rather
than propagating an error; a capture whose span is valid UTF-8 is stored
in the captures map keyed by its capture name with value the exact
source bytes of the captured span. -/
theorem C7_capture_utf8 (env : String → Option QuerySpec)
    (expr name : String) (names : List String) (src : List Nat)
    (cap : CaptureRec) (henv : env expr = some ⟨names, some [cap]⟩)
    (hn : names[cap.idx]? = some name) (hroot : name ≠ "root")
    (hspan : cap.nstart ≤ cap.nend ∧ cap.nend ≤ src.length) :
    (isValidUtf8 ((src.drop cap.nstart).take (cap.nend - cap.nstart)) =
        false →
      (query env expr src : Outcome Unit QueryCooked) = .panic) ∧
    (isValidUtf8 ((src.drop cap.nstart).take (cap.nend - cap.nstart)) =
        true →
      (query env expr src : Outcome Unit QueryCooked) =
        .ok ⟨[(name, (src.drop cap.nstart).take (cap.nend - cap.nstart))],
          0, 0⟩) := by
  constructor <;> intro hv <;>
    simp [query, henv, queryLoop, hn, hroot, utf8Text, hspan, hv,
      Outcome.bind, Outcome.map, insertS]

theorem C7_witness :
    ((query (fun _ => some ⟨["name"], some [⟨0, 0, 1⟩]⟩) "e" [97] :
        Outcome Unit QueryCooked) =
      .ok ⟨[("name", [97])], 0, 0⟩) :=
  (C7_capture_utf8 _ "e" "name" ["name"] [97] ⟨0, 0, 1⟩ rfl rfl
    (by decide) (by constructor <;> decide)).2 (by decide)

/-- C4. Segment coverage invariant: splitting the source at the sorted
boundary offsets (mutation.rs:118-119, as `apply` does with the
collected `start`/`end` offsets, which for a real parse tree are at most
`len(source_bytes)`) consumes every byte exactly once: the segments
concatenate back to the buffer, their byte lengths sum to
`len(source_bytes)`, and the emitted indices start at offset `0` with
the final segment ending at the end of the buffer. -/
theorem C4_split_coverage (c : List Nat) (sa : List Nat)
    (hb : ∀ b ∈ sa, b ≤ c.length) :
    ∃ sm : SplitMap, (split_at_indices c (sortNat sa) : Outcome Unit _) =
        .ok sm ∧
      concatAll sm.values = c ∧
      (sm.values.map List.length).sum = c.length ∧
      sm.indices = 0 :: sortNat sa := by
  have hperm : ∀ b ∈ sortNat sa, b ≤ c.length := by
    intro b hbmem
    exact hb b ((List.perm_insertionSort (· ≤ ·) sa).mem_iff.mp hbmem)
  have hpw : List.Pairwise (· ≤ ·) (sortNat sa) :=
    List.sorted_insertionSort (· ≤ ·) sa
  obtain ⟨vs, hgo, hcat⟩ := splitAtIndicesGo_spec c (sortNat sa) 0
    (Nat.zero_le _) (fun b hbm => ⟨Nat.zero_le _, hperm b hbm⟩) hpw
  refine ⟨⟨vs, 0 :: sortNat sa⟩, ?_, ?_, ?_, rfl⟩
  · simp [split_at_indices, hgo, Outcome.map]
  · simpa using hcat
  · rw [← concatAll_length]
    simp [hcat]

theorem C4_witness :
    ∃ sm : SplitMap, (split_at_indices [1, 2, 3, 4] (sortNat [3, 1]) :
        Outcome Unit _) = .ok sm ∧
      concatAll sm.values = [1, 2, 3, 4] ∧
      (sm.values.map List.length).sum = 4 ∧
      sm.indices = 0 :: sortNat [3, 1] :=
  C4_split_coverage [1, 2, 3, 4] [3, 1] (by decide)

/-- C5. Tie-break determinism: when two mutations of one collection
produce the same `start`, `apply`'s rewrite map (built left to right
with `HashMap::insert`, mutation.rs:116) retains only the later (in
document order) mutation's rewrite text at that start — the earlier
mutation's rewrite text is absent from the map the output is spliced
from. -/
theorem C5_tie_break_last_writer (env : String → Option QuerySpec)
    (src : List Nat) (d : String) (m1 m2 : Mutation)
    (q1 q2 : QueryCooked) (r1 r2 : List Nat)
    (hq1 : (query env m1.expression src : Outcome Unit QueryCooked) =
      .ok q1)
    (hq2 : (query env m2.expression src : Outcome Unit QueryCooked) =
      .ok q2)
    (heq : q1.qstart = q2.qstart)
    (hb1 : (buildRewrite q1.captures m1.substitute :
      Outcome Unit (List Nat)) = .ok r1)
    (hb2 : (buildRewrite q2.captures m2.substitute :
      Outcome Unit (List Nat)) = .ok r2) :
    (mutationPass env src [] [] [m1, m2] : Outcome Unit _) =
      .ok ([q1.qstart, q1.qend, q2.qstart, q2.qend],
        [(q2.qstart, r2)]) ∧
    apply env src ⟨d, [m1, m2]⟩ =
      applyFinish src [q1.qstart, q1.qend, q2.qstart, q2.qend]
        [(q2.qstart, r2)] := by
  have hpass : (mutationPass env src [] [] [m1, m2] : Outcome Unit _) =
      .ok ([q1.qstart, q1.qend, q2.qstart, q2.qend],
        [(q2.qstart, r2)]) := by
    simp [mutationPass, Outcome.bind, hq1, hq2, hb1, hb2, insertN, heq]
  exact ⟨hpass, by simp [apply, hpass, Outcome.bind]⟩

theorem C5_witness :
    ((mutationPass
        (fun e => if e = "e1" then some ⟨["root"], some [⟨0, 1, 3⟩]⟩
          else some ⟨["root"], some [⟨0, 1, 2⟩]⟩)
        [104, 105, 106, 107] [] []
        [⟨"e1", [.literal [65]]⟩, ⟨"e2", [.literal [66]]⟩] :
        Outcome Unit _) =
      .ok ([1, 3, 1, 2], [(1, [66])]) ∧
    apply
        (fun e => if e = "e1" then some ⟨["root"], some [⟨0, 1, 3⟩]⟩
          else some ⟨["root"], some [⟨0, 1, 2⟩]⟩)
        [104, 105, 106, 107]
        ⟨"d", [⟨"e1", [.literal [65]]⟩, ⟨"e2", [.literal [66]]⟩]⟩ =
      applyFinish [104, 105, 106, 107] [1, 3, 1, 2] [(1, [66])]) :=
  C5_tie_break_last_writer _ _ "d" ⟨"e1", [.literal [65]]⟩
    ⟨"e2", [.literal [66]]⟩ ⟨[], 3, 1⟩ ⟨[], 2, 1⟩ [65] [66]
    (by rfl) (by rfl) rfl (by rfl) (by rfl)

/-- C8. The claim says a substitute child entry whose tag is neither
`literal` nor `capture` makes the Rule Compiler fail with a
`MalformedRule` error returned to the caller.  The code hits
`unreachable!()` (mutation.rs:69): the process panics instead — here a
child tagged `other`. -/
theorem C8_counterexample :
    compileDoc [.mk "description" [.str "d"] none,
      .mk "mutation" [] (some [.mk "expression" [.str "q"] none,
        .mk "substitute" [] (some [.mk "other" [.str "x"] none])])] =
      .panic := by rfl

/-- C8 (amended): a rule document in which a substitute child entry has
a tag that is neither `literal` nor `capture` (and carries a string
argument, so the preceding `entry(0)` unwraps succeed) makes the Rule
Compiler panic via `unreachable!()` (mutation.rs:69) rather than return
a `MalformedRule` error. -/
theorem C8_bad_tag_panics (d q attrib tag : String)
    (h1 : tag ≠ "literal") (h2 : tag ≠ "capture") :
    compileDoc [.mk "description" [.str d] none,
      .mk "mutation" [] (some [.mk "expression" [.str q] none,
        .mk "substitute" [] (some [.mk tag [.str attrib] none])])] =
      .panic := by
  simp [compileDoc, compileLoop, getArg, getNode, parseSubs,
    KdlNode.name, KdlNode.args, KdlNode.children, KdlValue.asString,
    h1, h2, Outcome.bind, List.find?]

theorem C8_witness :
    compileDoc [.mk "description" [.str "desc"] none,
      .mk "mutation" [] (some [.mk "expression" [.str "(q)"] none,
        .mk "substitute" [] (some [.mk "regex" [.str "x"] none])])] =
      .panic :=
  C8_bad_tag_panics "desc" "(q)" "x" "regex" (by decide) (by decide)

theorem candLoop_events (qenv : String → Option QuerySpec)
    (src : List Nat) (colls : List MutationCollection) :
    ∀ ids, ∀ e ∈ (candLoop qenv src colls ids).1,
      ∃ i, e = Event.applyCandidate i := by
  intro ids
  induction ids with
  | nil => intro e he; simp [candLoop] at he
  | cons i rest ih =>
    intro e he
    simp only [candLoop] at he
    split at he
    all_goals try split at he
    all_goals simp at he
    all_goals
      first
      | exact ⟨i, he⟩
      | (rcases he with he | he
         · exact ⟨i, he⟩
         · exact ih e he)

theorem candLoop_spec (qenv : String → Option QuerySpec)
    (src : List Nat) (colls : List MutationCollection) :
    ∀ ids,
      (∀ i ∈ ids, ∃ c, colls[i]? = some c ∧
        apply qenv src c ≠ .panic) →
      candLoop qenv src colls ids =
        (ids.map Event.applyCandidate,
          .ok (ids.filterMap (applyOk qenv src colls))) := by
  intro ids
  induction ids with
  | nil => intro _; simp [candLoop]
  | cons i rest ih =>
    intro h
    obtain ⟨c, hc, hnp⟩ := h i (by simp)
    have hrest := ih fun j hj => h j (by simp [hj])
    cases ha : apply qenv src c with
    | ok v =>
      simp [candLoop, hc, ha, hrest, Outcome.map, applyOk,
        Outcome.toOption]
    | error u =>
      simp [candLoop, hc, ha, hrest, applyOk, Outcome.toOption]
    | panic => exact absurd ha hnp

/-- C9. Per-candidate recovery: once the language resolves, the body
parses and the index search returns hits, a candidate whose `apply`
returns an `Err` is dropped from the result sequence by the
`filter_map` (state.rs:62-80) and the request still succeeds; when every
hit's `apply` fails, `Refactor::search` returns `Ok` of the empty
list, not an error. -/
theorem C9_candidate_recovery (r : Refactor) (penv : ParserEnv)
    (lang : String) (L : Lang) (body : List Nat) (ids : List Nat)
    (hL : Refactor.get_lang lang = .ok L)
    (hset : penv.setLangOk L = true)
    (hparse : penv.parseOk = true)
    (hdict : r.dict lang = some ids)
    (hnp : ∀ i ∈ ids, ∃ c, r.mutations_collection[i]? = some c ∧
      apply penv.queryEnv body c ≠ .panic) :
    (Refactor.search r penv lang body).2 =
      .ok (ids.filterMap
        (applyOk penv.queryEnv body r.mutations_collection)) ∧
    ((∀ i ∈ ids, ∃ c, r.mutations_collection[i]? = some c ∧
        ∃ u, apply penv.queryEnv body c = .error u) →
      (Refactor.search r penv lang body).2 = .ok []) := by
  have hmain : (Refactor.search r penv lang body).2 =
      .ok (ids.filterMap
        (applyOk penv.queryEnv body r.mutations_collection)) := by
    simp [Refactor.search, hL, hset, hparse, hdict,
      candLoop_spec penv.queryEnv body r.mutations_collection ids hnp]
  refine ⟨hmain, fun hall => ?_⟩
  rw [hmain]
  have : ids.filterMap
      (applyOk penv.queryEnv body r.mutations_collection) = [] := by
    rw [List.filterMap_eq_nil_iff]
    intro i hi
    obtain ⟨c, hc, u, hu⟩ := hall i hi
    simp [applyOk, hc, hu, Outcome.toOption]
  rw [this]

theorem C9_witness :
    (Refactor.search
        ⟨fun _ => some [0], [⟨"d", [⟨"e", [.literal [65]]⟩]⟩]⟩
        ⟨fun _ => true, true, fun _ => some ⟨["root"], some [⟨0, 1, 2⟩]⟩⟩
        "rs" [195, 169]).2 = .ok [] :=
  (C9_candidate_recovery _ _ "rs" .rust [195, 169] [0] (by rfl) rfl rfl
      rfl
      (by
        intro i hi
        simp at hi
        subst hi
        exact ⟨_, rfl, by decide⟩)).2
    (by
      intro i hi
      simp at hi
      subst hi
      exact ⟨_, rfl, (), by decide⟩)

/-- C10. The two corpora treat a supported-but-unindexed language
differently: `Generate::search` uses the checked `self.dict.get(lang)`
(state.rs:112) and returns `Err(UnknownLang)` for every tag absent from
its map, while `Refactor::search` uses the direct map index
`self.dict[lang]` (state.rs:59), so for every tag that `get_lang`
accepts but that is absent from the refactor map (once the parser is
set and the body parses) the request reaches the `HashMap` index panic
instead of an error or an empty list. -/
theorem C10_corpora_divergence :
    (∀ (g : Generate) (lang : String), g.dict lang = none →
      Generate.search g lang = .error .UnknownLang) ∧
    (∀ (r : Refactor) (penv : ParserEnv) (lang : String) (L : Lang)
      (body : List Nat),
      Refactor.get_lang lang = .ok L → penv.setLangOk L = true →
      penv.parseOk = true → r.dict lang = none →
      (Refactor.search r penv lang body).2 = .panic) := by
  constructor
  · intro g lang h
    simp [Generate.search, h]
  · intro r penv lang L body hL hset hparse hdict
    simp [Refactor.search, hL, hset, hparse, hdict]

theorem C10_witness :
    Generate.search ⟨fun _ => none⟩ "rs" = .error .UnknownLang ∧
    (Refactor.search ⟨fun _ => none, []⟩
        ⟨fun _ => true, true, fun _ => none⟩ "rs" [97]).2 = .panic :=
  ⟨C10_corpora_divergence.1 ⟨fun _ => none⟩ "rs" rfl,
    C10_corpora_divergence.2 ⟨fun _ => none, []⟩
      ⟨fun _ => true, true, fun _ => none⟩ "rs" .rust [97] (by rfl) rfl
      rfl rfl⟩

/-- C2. The claim says a refactor request resolves the grammar, parses
the body, and only then embeds the prompt, so a parse failure precedes
any embedding call.  In the code (state.rs:141-153) `State::refactor`
embeds the prompt first and only then calls `Refactor::search`: on this
input the body fails to parse, the request fails with `SnippetParsing`,
and the embedding call is already in the trace — before the parse. -/
theorem C2_counterexample :
    State.refactor ⟨true, ⟨fun _ => none⟩, ⟨fun _ => none, []⟩⟩
        ⟨fun _ => true, false, fun _ => none⟩ "rs" [97] =
      ([.embed, .resolveGrammar, .parseBody], .error .SnippetParsing) ∧
    Event.embed ∈ (State.refactor ⟨true, ⟨fun _ => none⟩,
        ⟨fun _ => none, []⟩⟩
        ⟨fun _ => true, false, fun _ => none⟩ "rs" [97]).1 := by
  constructor
  · rfl
  · decide

/-- C2 (amended): for every refactor request the operations happen in
the order: embed the prompt, then resolve the grammar, then parse the
body once (one shared tree used for all candidates), then search the
index, then apply each candidate; every trace starts with the embedding
call, and when the body fails to parse the request fails with
`SnippetParsing` — after the embedding call has been made. -/
theorem C2_pipeline_order (st : State) (penv : ParserEnv)
    (lang : String) (body : List Nat) :
    (State.refactor st penv lang body =
        ([.embed], .error .EmbedFailed) ∨
     State.refactor st penv lang body =
        ([.embed, .resolveGrammar], .error .UnknownLang) ∨
     State.refactor st penv lang body =
        ([.embed, .resolveGrammar, .parseBody],
          .error .SnippetParsing) ∨
     State.refactor st penv lang body =
        ([.embed, .resolveGrammar, .parseBody], .panic) ∨
     (∃ ctr r, State.refactor st penv lang body =
        ([.embed, .resolveGrammar, .parseBody, .searchIndex] ++ ctr,
          r) ∧
      ∀ e ∈ ctr, ∃ i, e = Event.applyCandidate i)) ∧
    (∀ L, st.embedOk = true → Refactor.get_lang lang = .ok L →
      penv.setLangOk L = true → penv.parseOk = false →
      State.refactor st penv lang body =
        ([.embed, .resolveGrammar, .parseBody],
          .error .SnippetParsing)) := by
  constructor
  · cases hem : st.embedOk with
    | false =>
      left
      simp [State.refactor, hem]
    | true =>
      cases hL : Refactor.get_lang lang with
      | error e =>
        have he := get_lang_error lang e hL
        subst he
        right; left
        simp [State.refactor, Refactor.search, hem, hL]
      | ok L =>
        cases hset : penv.setLangOk L with
        | false =>
          right; left
          simp [State.refactor, Refactor.search, hem, hL, hset]
        | true =>
          cases hparse : penv.parseOk with
          | false =>
            right; right; left
            simp [State.refactor, Refactor.search, hem, hL, hset,
              hparse]
          | true =>
            cases hdict : st.refactorCorpus.dict lang with
            | none =>
              right; right; right; left
              simp [State.refactor, Refactor.search, hem, hL, hset,
                hparse, hdict]
            | some ids =>
              right; right; right; right
              refine ⟨(candLoop penv.queryEnv body
                  st.refactorCorpus.mutations_collection ids).1,
                (candLoop penv.queryEnv body
                  st.refactorCorpus.mutations_collection ids).2,
                ?_, ?_⟩
              · simp [State.refactor, Refactor.search, hem, hL, hset,
                  hparse, hdict]
              · exact candLoop_events penv.queryEnv body
                  st.refactorCorpus.mutations_collection ids
  · intro L hem hL hset hparse
    simp [State.refactor, Refactor.search, hem, hL, hset, hparse]

theorem C2_witness :
    State.refactor ⟨true, ⟨fun _ => none⟩, ⟨fun _ => some [], []⟩⟩
        ⟨fun _ => true, false, fun _ => none⟩ "go" [104] =
      ([.embed, .resolveGrammar, .parseBody],
        .error .SnippetParsing) :=
  (C2_pipeline_order ⟨true, ⟨fun _ => none⟩, ⟨fun _ => some [], []⟩⟩
      ⟨fun _ => true, false, fun _ => none⟩ "go" [104]).2
    .go rfl (by rfl) rfl rfl

end Silos
